import Mathlib

/-!
Verification of the bytecode layer of the rusty-jsyc compiler
(`src/compiler/src/bytecode.rs`).

The Rust code is shallowly embedded as follows:
* machine integers (`u8`, `u16`, `u32`, `u64`) become `Nat`; `i64` becomes
  `Int`; every `as uN` cast is an explicit `% 2 ^ N` (or an `Int` euclidean
  remainder for the `i64 -> u64` cast);
* an `f64` is represented by its IEEE-754 bit pattern (a `Nat < 2 ^ 64`),
  which is faithful because the only operation the code performs on a float
  is `f64::to_bits`;
* a Rust `String` operand payload is its UTF-8 byte list (`string.len()` and
  `string.as_bytes()` in the code both see exactly those bytes);
* `panic!` is modelled by `Option.none`, so every encoder that can panic
  returns `Option (List Nat)`;
* `Result<T, CompilerError>` becomes `Except CompilerError T`, and a
  function that may additionally panic (`from_literal`, whose
  `num.parse().unwrap()` can panic) returns an `Option` of that.
-/

/-- `crate::scope::Register` is `u8`. -/
abbrev Register := Nat

/-- `pub type Label = u32;` -/
abbrev Label := Nat

/-- `CompilerError` from `crate::error`; only the `Custom` variant is used
by this file. -/
inductive CompilerError where
  | Custom (msg : String)
  deriving DecidableEq

/-- The `Instruction` enum of `bytecode.rs`, verbatim. -/
inductive Instruction where
  | LoadString
  | LoadFloatNum
  | LoadLongNum
  | LoadNum
  | LoadArray
  | PropAccess
  | CallFunc
  | Eval
  | CallBytecodeFunc
  | ReturnBytecodeFunc
  | Copy
  | Exit
  | JumpCond
  | Jump
  | JumpCondNeg
  | LogicAnd
  | LogicOr
  | CompEqual
  | CompNotEqual
  | CompStrictEqual
  | CompStrictNotEqual
  | CompLessThan
  | CompGreaterThan
  | CompLessThanEqual
  | CompGreaterThanEqual
  | Add
  | Minus
  | Mul
  | Div
  deriving DecidableEq, Fintype

/-- `Instruction::to_byte`, with the exact opcode table of the source. -/
def Instruction.to_byte : Instruction → Nat
  | .LoadString => 1
  | .LoadNum => 2
  | .LoadFloatNum => 3
  | .LoadLongNum => 4
  | .LoadArray => 5
  | .PropAccess => 10
  | .CallFunc => 11
  | .Eval => 12
  | .CallBytecodeFunc => 13
  | .ReturnBytecodeFunc => 14
  | .Copy => 15
  | .Exit => 16
  | .JumpCond => 17
  | .Jump => 18
  | .JumpCondNeg => 19
  | .LogicAnd => 30
  | .LogicOr => 31
  | .CompEqual => 50
  | .CompNotEqual => 51
  | .CompStrictEqual => 52
  | .CompStrictNotEqual => 53
  | .CompLessThan => 54
  | .CompGreaterThan => 55
  | .CompLessThanEqual => 56
  | .CompGreaterThanEqual => 57
  | .Add => 100
  | .Minus => 102
  | .Mul => 101
  | .Div => 103

/-- `BytecodeAddrToken { ident: String }`. -/
structure BytecodeAddrToken where
  ident : String
  deriving DecidableEq

/-- `impl ToBytes for BytecodeAddrToken`: `vec![0; 8]`. -/
def BytecodeAddrToken.to_bytes (_t : BytecodeAddrToken) : List Nat :=
  List.replicate 8 0

/-- `LabelAddrToken { label: Label }`. -/
structure LabelAddrToken where
  label : Label
  deriving DecidableEq

/-- `impl ToBytes for LabelAddrToken`: `vec![0; 8]`. -/
def LabelAddrToken.to_bytes (_t : LabelAddrToken) : List Nat :=
  List.replicate 8 0

/-- The `Operand` enum. `String` carries its UTF-8 bytes, `FloatNum` its
IEEE-754 bit pattern, `LongNum` the mathematical value of the `i64`. -/
inductive Operand where
  | String (s : List Nat)
  | FloatNum (bits : Nat)
  | LongNum (n : Int)
  | ShortNum (num : Nat)
  | Reg (num : Nat)
  | RegistersArray (regs : List Register)
  | FunctionAddr (token : BytecodeAddrToken)
  | BranchAddr (token : LabelAddrToken)
  deriving DecidableEq

/-- `Operand::encode_string`. The guard compares the byte length against
`u16::max_value()`; the two prefix bytes are
`(len & 0xff00) as u8` and `(len & 0xff) as u8` (`as u8` is `% 256`). -/
def Operand.encode_string (s : List Nat) : Option (List Nat) :=
  if s.length > 65535 then
    none
  else
    some (((s.length &&& 0xff00) % 256) :: ((s.length &&& 0xff) % 256) :: s)

/-- `Operand::encode_registers_array`: guard against more than
`u8::max_value()` elements, then a `len as u8` count byte and the raw
register bytes. -/
def Operand.encode_registers_array (regs : List Register) : Option (List Nat) :=
  if regs.length > 255 then
    none
  else
    some ((regs.length % 256) :: regs)

/-- `Operand::encode_long_num` on a `u64`: eight mask-and-shift extractions,
each cast `as u8`. -/
def Operand.encode_long_num (num : Nat) : List Nat :=
  [((num &&& 0xff00000000000000) >>> 56) % 256,
   ((num &&& 0x00ff000000000000) >>> 48) % 256,
   ((num &&& 0x0000ff0000000000) >>> 40) % 256,
   ((num &&& 0x000000ff00000000) >>> 32) % 256,
   ((num &&& 0x00000000ff000000) >>> 24) % 256,
   ((num &&& 0x0000000000ff0000) >>> 16) % 256,
   ((num &&& 0x000000000000ff00) >>> 8) % 256,
   ((num &&& 0x00000000000000ff) >>> 0) % 256]

/-- `Operand::encode_float_num` is `encode_long_num(num.to_bits())`; the
float is represented by its bit pattern, so `to_bits` is the identity. -/
def Operand.encode_float_num (bits : Nat) : List Nat :=
  Operand.encode_long_num bits

/-- The Rust cast `i64 as u64`: the two's-complement bit pattern of the
value, i.e. the euclidean remainder modulo `2 ^ 64`. -/
def i64_to_u64 (n : Int) : Nat :=
  (n % (2 ^ 64 : Int)).toNat

/-- `Operand::to_bytes`. `ShortNum` and `Reg` share the one-byte arm as in
the source; results are `Option` because string/array encoding can panic. -/
def Operand.to_bytes : Operand → Option (List Nat)
  | .String s => Operand.encode_string s
  | .FloatNum bits => some (Operand.encode_float_num bits)
  | .LongNum n => some (Operand.encode_long_num (i64_to_u64 n))
  | .ShortNum num => some [num]
  | .Reg num => some [num]
  | .RegistersArray regs => Operand.encode_registers_array regs
  | .FunctionAddr token => some token.to_bytes
  | .BranchAddr token => some token.to_bytes

/-- The `resast` `Literal` node as consumed by `Operand::from_literal`:
`String` carries UTF-8 bytes, `Number` carries the raw source text of the
numeric literal (a `Cow<str>` in `resast`), and the unused payloads of
`RegEx` and `Template` are dropped. -/
inductive Literal where
  | Null
  | String (s : List Nat)
  | Number (num : List Char)
  | Boolean (b : Bool)
  | RegEx
  | Template
  deriving DecidableEq

/-- One decimal digit of a `u8` literal, as accepted by Rust's
`u8::from_str`. -/
def decDigit (c : Char) : Option Nat :=
  if '0' ≤ c ∧ c ≤ '9' then some (c.toNat - 48) else none

/-- Digit-accumulation loop of `u8::from_str`: any non-digit or any
overflow past 255 is an error. -/
def parseU8Core : List Char → Nat → Option Nat
  | [], acc => some acc
  | c :: cs, acc =>
    match decDigit c with
    | none => none
    | some d =>
      if acc * 10 + d > 255 then none else parseU8Core cs (acc * 10 + d)

/-- Rust's `str::parse::<u8>()`: an optional leading `+`, then one or more
decimal digits whose value fits in a `u8`. -/
def parse_u8 (s : List Char) : Option Nat :=
  match s with
  | [] => none
  | '+' :: rest => if rest.isEmpty then none else parseU8Core rest 0
  | _ => parseU8Core s 0

/-- `Operand::from_literal`. The `Number` arm is
`Operand::ShortNum(num.parse().unwrap())`: a failed parse panics, which the
embedding renders as `none`. -/
def Operand.from_literal : Literal → Option (Except CompilerError Operand)
  | .Null => some (.ok (.Reg 0))
  | .String s => some (.ok (.String s))
  | .Number num => (parse_u8 num).map (fun n => .ok (.ShortNum n))
  | .Boolean b => some (.ok (.ShortNum b.toNat))
  | .RegEx => some (.error (.Custom "regex and template literals are not supported"))
  | .Template => some (.error (.Custom "regex and template literals are not supported"))

/-- The `Command` struct: one instruction plus its ordered operand list. -/
structure Command where
  instruction : Instruction
  operands : List Operand
  deriving DecidableEq

/-- `impl ToBytes for Command`: the opcode byte followed by each operand's
bytes, flattened in operand order. -/
def Command.to_bytes (cmd : Command) : Option (List Nat) :=
  (cmd.operands.mapM Operand.to_bytes).map
    (fun bss => cmd.instruction.to_byte :: bss.flatten)

/-- The `BytecodeElement` enum: a command or a label marker. -/
inductive BytecodeElement where
  | Command (cmd : Command)
  | Label (label : Label)
  deriving DecidableEq

/-- `impl ToBytes for BytecodeElement`: labels contribute no bytes. -/
def BytecodeElement.to_bytes : BytecodeElement → Option (List Nat)
  | .Command cmd => cmd.to_bytes
  | .Label _ => some []

/-- The `Bytecode` container: an ordered element sequence. -/
structure Bytecode where
  elements : List BytecodeElement
  deriving DecidableEq

/-- `Bytecode::new()`. -/
def Bytecode.new : Bytecode := ⟨[]⟩

/-- `Bytecode::add`: push a command element. -/
def Bytecode.add (bc : Bytecode) (command : Command) : Bytecode :=
  ⟨bc.elements ++ [BytecodeElement.Command command]⟩

/-- `Bytecode::add_label`: push a label element. -/
def Bytecode.add_label (bc : Bytecode) (label : Label) : Bytecode :=
  ⟨bc.elements ++ [BytecodeElement.Label label]⟩

/-- `Bytecode::combine`: append `other`'s elements after `self`'s. -/
def Bytecode.combine (bc other : Bytecode) : Bytecode :=
  ⟨bc.elements ++ other.elements⟩

/-- `Bytecode::last_op_is_return`: match on `elements.last()`. -/
def Bytecode.last_op_is_return (bc : Bytecode) : Bool :=
  match bc.elements.getLast? with
  | some (BytecodeElement.Command cmd) => cmd.instruction == Instruction.ReturnBytecodeFunc
  | some _ => false
  | none => false

/-- `impl ToBytes for Bytecode`: every element's bytes, flattened in
element order. -/
def Bytecode.to_bytes (bc : Bytecode) : Option (List Nat) :=
  (bc.elements.mapM BytecodeElement.to_bytes).map List.flatten

/-! ## Spec-side definitions and helper lemmas -/

/-- The eight big-endian base-256 digits of a 64-bit value, as the spec
describes the `LongNum` wire format. -/
def beBytes64 (m : Nat) : List Nat :=
  [m / 2 ^ 56 % 256, m / 2 ^ 48 % 256, m / 2 ^ 40 % 256, m / 2 ^ 32 % 256,
   m / 2 ^ 24 % 256, m / 2 ^ 16 % 256, m / 2 ^ 8 % 256, m % 256]

/-- The spec's `bit_pattern_of(d)` reinterpreted as an `i64`: the signed
value whose two's-complement bit pattern is `bits`. -/
def f64_bits_as_i64 (bits : Nat) : Int :=
  if bits < 2 ^ 63 then (bits : Int) else (bits : Int) - 2 ^ 64

theorem and_mask_shiftRight (m k : Nat) :
    (m &&& (255 <<< k)) >>> k = (m >>> k) % 256 := by
  have h255 : ∀ j, Nat.testBit 255 j = decide (j < 8) := by
    intro j
    have h : (255 : Nat) = 2 ^ 8 - 1 := by decide
    rw [h, Nat.testBit_two_pow_sub_one]
  have h256 : (256 : Nat) = 2 ^ 8 := by decide
  apply Nat.eq_of_testBit_eq
  intro i
  rw [Nat.testBit_shiftRight, Nat.testBit_and, Nat.testBit_shiftLeft, h255,
    h256, Nat.testBit_mod_two_pow, Nat.testBit_shiftRight]
  have e1 : k + i - k = i := by omega
  rw [e1]
  simp [Nat.le_add_right, Bool.and_comm]

theorem byte_extract (m k : Nat) :
    ((m &&& (255 <<< k)) >>> k) % 256 = m / 2 ^ k % 256 := by
  rw [and_mask_shiftRight, Nat.mod_mod_of_dvd _ (dvd_refl 256),
    Nat.shiftRight_eq_div_pow]

theorem encode_long_num_eq_beBytes64 (m : Nat) :
    Operand.encode_long_num m = beBytes64 m := by
  have g : ∀ mask k : Nat, mask = 255 <<< k →
      ((m &&& mask) >>> k) % 256 = m / 2 ^ k % 256 := by
    intro mask k hk
    rw [hk]
    exact byte_extract m k
  rw [Operand.encode_long_num, beBytes64,
    g 0xff00000000000000 56 (by decide), g 0x00ff000000000000 48 (by decide),
    g 0x0000ff0000000000 40 (by decide), g 0x000000ff00000000 32 (by decide),
    g 0x00000000ff000000 24 (by decide), g 0x0000000000ff0000 16 (by decide),
    g 0x000000000000ff00 8 (by decide), g 0x00000000000000ff 0 (by decide)]
  norm_num

/-! ## Claims -/

set_option maxRecDepth 8192 in
/-- Claim C1: refuted on the code. For a string of 256 bytes (256 times the
byte 97), the encoded length prefix is `[0, 0]`, which decodes to `0`, not
to the byte length `256`: the high prefix byte `(len & 0xff00) as u8` is
always zero because the cast truncates away exactly the bits the mask kept.
The theorem evaluates the encoder at that failing input. -/
theorem string_encoding_high_length_byte_is_zero :
    Operand.to_bytes (Operand.String (List.replicate 256 97)) =
      some (0 :: 0 :: List.replicate 256 97)
    ∧ (0 * 256 + 0 : Nat) ≠ 256 := by
  constructor
  · rfl
  · decide

/-- Claim C2: refuted on the code. `Operand::from_literal` is claimed never
to fail on number literals, but its `Number` arm calls
`num.parse::<u8>().unwrap()`, which panics (modelled as `none`) whenever the
literal text is not a decimal integer in `0..=255` — for example `300` and
`1.5`. -/
theorem from_literal_number_panics :
    Operand.from_literal (Literal.Number ['3', '0', '0']) = none
    ∧ Operand.from_literal (Literal.Number ['1', '.', '5']) = none := by
  constructor
  · rfl
  · rfl

/-- Claim C3: `Instruction::to_byte` is a total pure function (it is a Lean
function) and is injective: any two instructions with the same opcode byte
are equal. -/
theorem to_byte_injective :
    ∀ a b : Instruction, a.to_byte = b.to_byte → a = b := by decide

/-- Witness for C3 at a concrete pair of instructions. -/
theorem to_byte_injective_witness :
    Instruction.Add.to_byte = Instruction.Add.to_byte ∧
      Instruction.Add = Instruction.Add :=
  ⟨rfl, to_byte_injective Instruction.Add Instruction.Add rfl⟩

/-- The three-command example program of the spec and of
`test_bytecode_to_bytes`. -/
def exampleProgram : Bytecode :=
  ⟨[BytecodeElement.Command ⟨Instruction.LoadNum, [Operand.Reg 151, Operand.ShortNum 2]⟩,
    BytecodeElement.Command ⟨Instruction.LoadNum, [Operand.Reg 150, Operand.ShortNum 3]⟩,
    BytecodeElement.Command ⟨Instruction.Mul, [Operand.Reg 150, Operand.Reg 151]⟩]⟩

/-- Claim C4: a command encodes to its opcode byte followed by the
concatenation of its operands' encodings in operand order with no
separators; a bytecode encodes to the concatenation of its elements'
encodings in element order, a label contributing zero bytes; the empty
bytecode encodes to zero bytes; and the three-command example program
encodes to `[2, 151, 2, 2, 150, 3, 101, 150, 151]`. -/
theorem command_and_bytecode_encoding :
    (∀ (cmd : Command) (bss : List (List Nat)),
        cmd.operands.mapM Operand.to_bytes = some bss →
        cmd.to_bytes = some (cmd.instruction.to_byte :: bss.flatten))
    ∧ (∀ (bc : Bytecode) (bss : List (List Nat)),
        bc.elements.mapM BytecodeElement.to_bytes = some bss →
        bc.to_bytes = some bss.flatten)
    ∧ (∀ label : Label, BytecodeElement.to_bytes (BytecodeElement.Label label) = some [])
    ∧ Bytecode.to_bytes ⟨[]⟩ = some []
    ∧ exampleProgram.to_bytes = some [2, 151, 2, 2, 150, 3, 101, 150, 151] := by
  refine ⟨?_, ?_, ?_, rfl, by decide⟩
  · intro cmd bss h
    rw [Command.to_bytes, h, Option.map_some']
  · intro bc bss h
    rw [Bytecode.to_bytes, h, Option.map_some']
  · intro label
    rfl

/-- Witness for C4 at the `Add` command of the `test_command` unit test. -/
theorem command_and_bytecode_encoding_witness :
    [Operand.Reg 150, Operand.Reg 151].mapM Operand.to_bytes = some [[150], [151]]
    ∧ Command.to_bytes ⟨Instruction.Add, [Operand.Reg 150, Operand.Reg 151]⟩ =
        some (Instruction.Add.to_byte :: [[150], [151]].flatten) :=
  ⟨rfl, command_and_bytecode_encoding.1
    ⟨Instruction.Add, [Operand.Reg 150, Operand.Reg 151]⟩ [[150], [151]] rfl⟩

/-- Claim C5: `Bytecode::combine` is associative, and either association
yields exactly the linear concatenation of the three element sequences
verbatim — no reordering, deduplication or renumbering of labels. -/
theorem combine_assoc_order_preserving :
    ∀ a b c : Bytecode,
      (a.combine b).combine c = a.combine (b.combine c)
      ∧ ((a.combine b).combine c).elements = a.elements ++ b.elements ++ c.elements
      ∧ (a.combine (b.combine c)).elements = a.elements ++ b.elements ++ c.elements := by
  intro a b c
  refine ⟨?_, rfl, ?_⟩
  · simp [Bytecode.combine, List.append_assoc]
  · simp [Bytecode.combine, List.append_assoc]

/-- Claim C6: `last_op_is_return` is true exactly when the final element is
a `ReturnBytecodeFunc` command; it is false on the empty bytecode, false
whenever the last element is a label (whatever precedes it), and false
whenever the last element is a command with any other instruction. -/
theorem last_op_is_return_iff :
    ∀ bc : Bytecode,
      (bc.last_op_is_return = true ↔
        ∃ cmd : Command, bc.elements.getLast? = some (BytecodeElement.Command cmd)
          ∧ cmd.instruction = Instruction.ReturnBytecodeFunc)
      ∧ Bytecode.new.last_op_is_return = false
      ∧ (∀ label : Label, (bc.add_label label).last_op_is_return = false)
      ∧ (∀ cmd : Command, cmd.instruction ≠ Instruction.ReturnBytecodeFunc →
          (bc.add cmd).last_op_is_return = false) := by
  intro bc
  refine ⟨?_, rfl, ?_, ?_⟩
  · cases h : bc.elements.getLast? with
    | none => simp [Bytecode.last_op_is_return, h]
    | some el =>
      cases el with
      | Command cmd => simp [Bytecode.last_op_is_return, h, beq_iff_eq]
      | Label label => simp [Bytecode.last_op_is_return, h]
  · intro label
    simp [Bytecode.last_op_is_return, Bytecode.add_label, List.getLast?_concat]
  · intro cmd h
    simp [Bytecode.last_op_is_return, Bytecode.add, List.getLast?_concat, h]

/-- Witness for C6: a bytecode ending in a `Copy` command reports false. -/
theorem last_op_is_return_iff_witness :
    (Command.mk Instruction.Copy []).instruction ≠ Instruction.ReturnBytecodeFunc
    ∧ (Bytecode.new.add ⟨Instruction.Copy, []⟩).last_op_is_return = false :=
  ⟨by decide, (last_op_is_return_iff Bytecode.new).2.2.2 ⟨Instruction.Copy, []⟩ (by decide)⟩

/-- Claim C7: for every `i64` value, the `LongNum` encoding is the eight
big-endian base-256 digits of the value's two's-complement bit pattern;
the spec's test vector for `1234567890123456789` holds; and the encoding of
the negated input is the encoding of the complement-and-increment
(`2 ^ 64 - pattern`, modulo `2 ^ 64`) of the original bit pattern. -/
theorem longNum_encoding_twos_complement :
    (∀ n : Int, -(2 ^ 63) ≤ n → n < 2 ^ 63 →
        Operand.to_bytes (Operand.LongNum n) = some (beBytes64 (i64_to_u64 n)))
    ∧ Operand.to_bytes (Operand.LongNum 1234567890123456789) =
        some [0x11, 0x22, 0x10, 0xF4, 0x7D, 0xE9, 0x81, 0x15]
    ∧ (∀ n : Int, -(2 ^ 63) < n → n < 2 ^ 63 →
        Operand.to_bytes (Operand.LongNum (-n)) =
          some (beBytes64 ((2 ^ 64 - i64_to_u64 n) % 2 ^ 64))) := by
  refine ⟨?_, by decide, ?_⟩
  · intro n _ _
    rw [Operand.to_bytes, encode_long_num_eq_beBytes64]
  · intro n h1 h2
    have hpow63 : (2 : Int) ^ 63 = 9223372036854775808 := by norm_num
    have hpow64i : (2 : Int) ^ 64 = 18446744073709551616 := by norm_num
    have hpow64n : (2 : Nat) ^ 64 = 18446744073709551616 := by norm_num
    have key : i64_to_u64 (-n) = (2 ^ 64 - i64_to_u64 n) % 2 ^ 64 := by
      rw [i64_to_u64, i64_to_u64, hpow64i, hpow64n]
      rw [hpow63] at h1 h2
      omega
    rw [Operand.to_bytes, encode_long_num_eq_beBytes64, key]

/-- Witness for C7 at `n = 5` and `n = -5`. -/
theorem longNum_encoding_twos_complement_witness :
    (-(2 ^ 63) ≤ (5 : Int) ∧ (5 : Int) < 2 ^ 63)
    ∧ Operand.to_bytes (Operand.LongNum 5) = some (beBytes64 (i64_to_u64 5))
    ∧ Operand.to_bytes (Operand.LongNum (-5)) =
        some (beBytes64 ((2 ^ 64 - i64_to_u64 5) % 2 ^ 64)) :=
  ⟨⟨by decide, by decide⟩,
   longNum_encoding_twos_complement.1 5 (by decide) (by decide),
   longNum_encoding_twos_complement.2.2 5 (by decide) (by decide)⟩

/-- Claim C8: a register list of at most 255 elements encodes to one exact
count byte followed by the elements verbatim; the empty array encodes to
`[0]`; `[1, 2, 200]` encodes to `[3, 1, 2, 200]`; and encoding fails
(modelled `none`, a panic in the code) exactly when the list has more than
255 elements. -/
theorem registers_array_encoding :
    (∀ regs : List Register, regs.length ≤ 255 →
        Operand.to_bytes (Operand.RegistersArray regs) = some (regs.length :: regs))
    ∧ Operand.to_bytes (Operand.RegistersArray []) = some [0]
    ∧ Operand.to_bytes (Operand.RegistersArray [1, 2, 200]) = some [3, 1, 2, 200]
    ∧ (∀ regs : List Register, 255 < regs.length →
        Operand.to_bytes (Operand.RegistersArray regs) = none) := by
  refine ⟨?_, by decide, by decide, ?_⟩
  · intro regs h
    rw [Operand.to_bytes, Operand.encode_registers_array, if_neg (by omega),
      Nat.mod_eq_of_lt (by omega)]
  · intro regs h
    rw [Operand.to_bytes, Operand.encode_registers_array, if_pos (by omega)]

/-- Witness for C8 at the register list `[1, 2, 200]`. -/
theorem registers_array_encoding_witness :
    ([1, 2, 200] : List Register).length ≤ 255
    ∧ Operand.to_bytes (Operand.RegistersArray [1, 2, 200]) =
        some (([1, 2, 200] : List Register).length :: [1, 2, 200]) :=
  ⟨by decide, registers_array_encoding.1 [1, 2, 200] (by decide)⟩

/-- Claim C9: for every 64-bit pattern, the `FloatNum` encoding agrees bit
for bit with the `LongNum` encoding of the double's bit pattern
reinterpreted as an `i64`. -/
theorem floatNum_matches_longNum_encoding :
    ∀ bits : Nat, bits < 2 ^ 64 →
      Operand.to_bytes (Operand.FloatNum bits) =
        Operand.to_bytes (Operand.LongNum (f64_bits_as_i64 bits)) := by
  intro bits hb
  have hpow63 : (2 : Nat) ^ 63 = 9223372036854775808 := by norm_num
  have hpow63i : (2 : Int) ^ 63 = 9223372036854775808 := by norm_num
  have hpow64i : (2 : Int) ^ 64 = 18446744073709551616 := by norm_num
  have hpow64n : (2 : Nat) ^ 64 = 18446744073709551616 := by norm_num
  have key : i64_to_u64 (f64_bits_as_i64 bits) = bits := by
    rw [i64_to_u64, f64_bits_as_i64, hpow63, hpow64i]
    rw [hpow64n] at hb
    split <;> omega
  rw [Operand.to_bytes, Operand.to_bytes, Operand.encode_float_num, key]

/-- Witness for C9 at the bit pattern of `0.12345`
(`0x3FBF9A6B50B0F27C`, whose bytes `[63, 191, 154, 107, 80, 176, 242, 124]`
appear in `test_encode_float_num`). -/
theorem floatNum_matches_longNum_encoding_witness :
    (0x3FBF9A6B50B0F27C : Nat) < 2 ^ 64
    ∧ Operand.to_bytes (Operand.FloatNum 0x3FBF9A6B50B0F27C) =
        Operand.to_bytes (Operand.LongNum (f64_bits_as_i64 0x3FBF9A6B50B0F27C)) :=
  ⟨by decide, floatNum_matches_longNum_encoding 0x3FBF9A6B50B0F27C (by decide)⟩

/-- Claim C10: serialization is a monoid homomorphism with respect to
`combine`: whenever both fragments serialize, the combination serializes to
the concatenation of their byte sequences, and the empty bytecode
serializes to the empty byte sequence. -/
theorem to_bytes_combine_homomorphism :
    (∀ (a b : Bytecode) (xa xb : List Nat),
        a.to_bytes = some xa → b.to_bytes = some xb →
        (a.combine b).to_bytes = some (xa ++ xb))
    ∧ Bytecode.new.to_bytes = some [] := by
  refine ⟨?_, rfl⟩
  intro a b xa xb ha hb
  rw [Bytecode.to_bytes] at ha hb
  rcases Option.map_eq_some'.mp ha with ⟨la, hla, hfa⟩
  rcases Option.map_eq_some'.mp hb with ⟨lb, hlb, hfb⟩
  rw [Bytecode.to_bytes]
  show Option.map List.flatten ((a.elements ++ b.elements).mapM BytecodeElement.to_bytes) = _
  rw [List.mapM_append, hla, hlb]
  simp [List.flatten_append, hfa, hfb]

/-- Witness for C10: a label-only fragment combined with an `Exit` command
fragment. -/
theorem to_bytes_combine_homomorphism_witness :
    Bytecode.to_bytes ⟨[BytecodeElement.Label 7]⟩ = some []
    ∧ Bytecode.to_bytes ⟨[BytecodeElement.Command ⟨Instruction.Exit, [Operand.ShortNum 0]⟩]⟩ =
        some [16, 0]
    ∧ (Bytecode.combine ⟨[BytecodeElement.Label 7]⟩
        ⟨[BytecodeElement.Command ⟨Instruction.Exit, [Operand.ShortNum 0]⟩]⟩).to_bytes =
        some ([] ++ [16, 0]) :=
  ⟨rfl, rfl, to_bytes_combine_homomorphism.1 _ _ _ _ rfl rfl⟩
